import Mathlib

/-!
Verification development for the colorbar_extractor_app repository.

The development shallowly embeds the pure logic of
`examples/contour_utils.py`, `src/colorbar_extractor_app.py` and
`src/contour_extractor_app.py`:

* numpy arrays become `List (List _)` with explicit shape predicates;
* floating point numerics are idealized as exact rationals `ℚ` for the
  grid plumbing (branch dispatch, shapes, masking), with the
  transcendental library calls (`np.exp`, `np.sin`, ...) abstracted as an
  explicit record `NumOps` of rational operations, and as real numbers
  `ℝ` with `Real.sin`/`Real.sqrt`/`arctan2` for the pointwise geometric
  mask predicates;
* missing values (`np.nan`) become `Option ℚ` with `none` as the
  missing-value marker;
* Python `int()` (truncation toward zero) becomes `pytrunc`;
* the GUI state touched by an event handler is passed explicitly and the
  handler's effect is returned.
-/

/-- Shape of a 2-D array: `m` rows, each of length `n`. -/
def IsShape {α : Type} (A : List (List α)) (m n : ℕ) : Prop :=
  A.length = m ∧ ∀ r ∈ A, r.length = n

instance {α : Type} (A : List (List α)) (m n : ℕ) : Decidable (IsShape A m n) := by
  unfold IsShape; infer_instance

/-- Element of a 2-D array at row `i`, column `j` (`none` when out of range). -/
def get2 {α : Type} (A : List (List α)) (i j : ℕ) : Option α :=
  A[i]?.bind fun r => r[j]?

/-- Element-wise combination of two 2-D arrays (numpy broadcasting-free case). -/
def map2D {α β γ : Type} (f : α → β → γ) (A : List (List α)) (B : List (List β)) :
    List (List γ) :=
  List.zipWith (List.zipWith f) A B

/-- Idealization of `np.linspace a b n`: `n` evenly spaced rationals from `a`
to `b` inclusive (`contour_utils.py` lines 67-68). -/
def linspace (a b : ℚ) (n : ℕ) : List ℚ :=
  (List.range n).map fun (i : ℕ) => a + (b - a) * (i : ℚ) / ((n : ℚ) - 1)

/-- Abstracted transcendental operations (`np.exp`, `np.sin`, `np.cos`,
`np.sqrt`, `np.arctan2`), which `contour_utils.py` delegates to numpy. -/
structure NumOps where
  exp : ℚ → ℚ
  sin : ℚ → ℚ
  cos : ℚ → ℚ
  sqrt : ℚ → ℚ
  arctan2 : ℚ → ℚ → ℚ

/-- Embedding of `generate_contour_data` (`contour_utils.py` lines 51-89):
`X, Y = np.meshgrid(np.linspace(-3,3,nx), np.linspace(-3,3,ny))` followed by
the four pattern formulas with a silent default fallback. -/
def generate_contour_data (ops : NumOps) (nx ny : ℕ) (pattern : String) :
    List (List ℚ) × List (List ℚ) × List (List ℚ) :=
  let x := linspace (-3) 3 nx
  let y := linspace (-3) 3 ny
  let X := y.map fun _ => x
  let Y := y.map fun yv => x.map fun _ => yv
  let Z :=
    if pattern = "peaks" then
      map2D (fun xv yv =>
        3 * (1 - xv)^2 * ops.exp (-xv^2 - (yv + 1)^2)
          - 10 * (xv/5 - xv^3 - yv^5) * ops.exp (-xv^2 - yv^2)
          - 1/3 * ops.exp (-(xv + 1)^2 - yv^2)) X Y
    else if pattern = "waves" then
      map2D (fun xv yv =>
        let R := ops.sqrt (xv^2 + yv^2)
        ops.sin (R * 2) * ops.exp (-R / 3)) X Y
    else if pattern = "gradient" then
      map2D (fun xv yv => xv + yv) X Y
    else if pattern = "stress" then
      map2D (fun xv yv =>
        ops.sin xv * ops.cos yv + 1/2 * ops.sin (2*xv) * ops.cos (2*yv)) X Y
    else
      map2D (fun xv yv => xv * ops.exp (-xv^2 - yv^2)) X Y
  (X, Y, Z)

/-- Keyword parameters of `create_shape_mask` with their `kwargs.get` defaults
(`contour_utils.py` lines 141-168). -/
structure ShapeKwargs where
  radius : ℚ
  center_x : ℚ
  center_y : ℚ
  width : ℚ
  height : ℚ
  outer_radius : ℚ
  inner_radius : ℚ
  n_teeth : ℚ

/-- Default keyword values: radius 2.0, center (0,0), width 4.0, height 3.0,
outer radius 2.5, inner radius 1.0, 8 teeth. -/
def defaultKwargs : ShapeKwargs :=
  ⟨2, 0, 0, 4, 3, 5/2, 1, 8⟩

/-- Embedding of `create_shape_mask` (`contour_utils.py` lines 115-178):
element-wise inclusion test per shape, all-true fallback for an unknown
shape name. -/
def create_shape_mask (ops : NumOps) (X Y : List (List ℚ)) (shape : String)
    (offset_x offset_y : ℚ) (kw : ShapeKwargs) : List (List Bool) :=
  if shape = "circle" then
    map2D (fun xv yv =>
      decide ((xv - offset_x - kw.center_x)^2 + (yv - offset_y - kw.center_y)^2
        ≤ kw.radius^2)) X Y
  else if shape = "rectangle" then
    map2D (fun xv yv =>
      decide (|xv - offset_x - kw.center_x| ≤ kw.width/2) &&
      decide (|yv - offset_y - kw.center_y| ≤ kw.height/2)) X Y
  else if shape = "ring" then
    map2D (fun xv yv =>
      let R := ops.sqrt ((xv - offset_x)^2 + (yv - offset_y)^2)
      decide (kw.inner_radius ≤ R) && decide (R ≤ kw.outer_radius)) X Y
  else if shape = "bracket" then
    map2D (fun xv yv =>
      let xo := xv - offset_x
      let yo := yv - offset_y
      (decide (|xo| ≤ 5/2) && decide (-(5/2) ≤ yo) && decide (yo ≤ -1)) ||
      (decide (-(5/2) ≤ xo) && decide (xo ≤ -1) && decide (|yo| ≤ 5/2))) X Y
  else if shape = "gear" then
    map2D (fun xv yv =>
      let xo := xv - offset_x
      let yo := yv - offset_y
      let R := ops.sqrt (xo^2 + yo^2)
      let theta := ops.arctan2 yo xo
      let modulated_r := 3/2 + 1/2 * (1 + ops.sin (kw.n_teeth * theta)) / 2
      decide (R ≤ modulated_r) && decide (1/2 ≤ R)) X Y
  else
    X.map fun row => row.map fun _ => true

/-- Embedding of `apply_mask_to_data` (`contour_utils.py` lines 181-207):
`none` models `np.nan`; mode `cae_inner` blanks values outside the mask,
`cae_outer` blanks values inside it, any other mode leaves the data as is. -/
def apply_mask_to_data (Z : List (List (Option ℚ))) (mask : List (List Bool))
    (contour_type : String) : List (List (Option ℚ)) :=
  if contour_type = "cae_inner" then
    map2D (fun z m => if m then z else none) Z mask
  else if contour_type = "cae_outer" then
    map2D (fun z m => if m then none else z) Z mask
  else Z

/-- Python `int()` on a rational: truncation toward zero. -/
def pytrunc (q : ℚ) : ℤ :=
  if 0 ≤ q then ⌊q⌋ else -⌊-q⌋

/-- Canvas-to-image coordinate transform shared by both GUI tools
(`colorbar_extractor_app.py` lines 191-194, `contour_extractor_app.py`
lines 281-285): `int((c - offset) / scale)`. -/
def canvas_to_image_pt (offx offy : ℤ) (scale : ℚ) (cx cy : ℤ) : ℤ × ℤ :=
  (pytrunc (((cx - offx : ℤ) : ℚ) / scale),
   pytrunc (((cy - offy : ℤ) : ℚ) / scale))

/-- A contour as delivered by `cv2.findContours`, abstracted to the two
attributes the app reads: `cv2.contourArea` and `cv2.boundingRect`. -/
structure Contour where
  area : ℚ
  rx : ℤ
  ry : ℤ
  rw : ℤ
  rh : ℤ

/-- Minimum of a nonempty integer list, Python `min` (0 on `[]`, unused). -/
def list_min : List ℤ → ℤ
  | [] => 0
  | a :: as => as.foldl min a

/-- Maximum of a nonempty integer list, Python `max` (0 on `[]`, unused). -/
def list_max : List ℤ → ℤ
  | [] => 0
  | a :: as => as.foldl max a

/-- Embedding of the post-filtering part of
`AdvancedColorbarExtractor.run_auto_detection`
(`colorbar_extractor_app.py` lines 225-240): keep contours of area > 50,
union their bounding rectangles, fall back to the whole ROI. -/
def run_auto_detection (contours : List Contour) (roi_w roi_h : ℤ) :
    ℤ × ℤ × ℤ × ℤ :=
  if contours.isEmpty then (0, 0, roi_w, roi_h)
  else
    let rects := (contours.filter fun c => decide (50 < c.area)).map
      fun c => (c.rx, c.ry, c.rw, c.rh)
    if rects.isEmpty then (0, 0, roi_w, roi_h)
    else
      let min_x := list_min (rects.map fun r => r.1)
      let min_y := list_min (rects.map fun r => r.2.1)
      let max_x := list_max (rects.map fun r => r.1 + r.2.2.1)
      let max_y := list_max (rects.map fun r => r.2.1 + r.2.2.2)
      (min_x, min_y, max_x - min_x, max_y - min_y)

/-- Embedding of the crop-rectangle computation in
`AdvancedColorbarExtractor.update_preview` (`colorbar_extractor_app.py`
lines 256-277): apply the four margins to the base rectangle
`(bx, by, bw, bh)`, clip, then force a span of at least 1.
Returns `(x1, y1, x2, y2)` in ROI coordinates. -/
def update_preview_rect (roi_w roi_h : ℤ) (base : ℤ × ℤ × ℤ × ℤ)
    (mt mb ml mr : ℤ) : ℤ × ℤ × ℤ × ℤ :=
  let bx := base.1
  let by0 := base.2.1
  let bw := base.2.2.1
  let bh := base.2.2.2
  let x1 := max 0 (bx + ml)
  let y1 := max 0 (by0 + mt)
  let x2 := min roi_w (bx + bw - mr)
  let y2 := min roi_h (by0 + bh - mb)
  let x2 := if x2 ≤ x1 then x1 + 1 else x2
  let y2 := if y2 ≤ y1 then y1 + 1 else y2
  (x1, y1, x2, y2)

/-- Embedding of `AdvancedColorbarExtractor.on_main_release`
(`colorbar_extractor_app.py` lines 182-208): order the drag corners,
transform to image coordinates, clip to the image, and set the ROI only
when the clipped selection is at least 5 pixels in both directions
(`none` means the handler returns without setting an ROI or running
detection). -/
def on_main_release_roi (w h : ℤ) (offx offy : ℤ) (scale : ℚ)
    (sx sy ex ey : ℤ) : Option (ℤ × ℤ × ℤ × ℤ) :=
  let x1 := min sx ex
  let y1 := min sy ey
  let x2 := max sx ex
  let y2 := max sy ey
  let p1 := canvas_to_image_pt offx offy scale x1 y1
  let p2 := canvas_to_image_pt offx offy scale x2 y2
  let ix1 := max 0 p1.1
  let iy1 := max 0 p1.2
  let ix2 := min w p2.1
  let iy2 := min h p2.2
  if ix2 - ix1 < 5 ∨ iy2 - iy1 < 5 then none
  else some (ix1, iy1, ix2, iy2)

/-- A region of the contour extractor: a type tag ("rectangle" or
"freehand") with its point list in image pixel coordinates
(`contour_extractor_app.py` line 50). -/
abbrev Region := String × List (ℤ × ℤ)

/-- Embedding of the rectangle branch of `ContourExtractor.add_region`
(`contour_extractor_app.py` lines 372-400): transform the two drawn
corners to image coordinates, clip, reject selections under 5 pixels on
either axis (state unchanged), then normalize corner order and append a
two-point "rectangle" region. -/
def add_region_rectangle (w h : ℤ) (offx offy : ℤ) (scale : ℚ)
    (c1 c2 : ℤ × ℤ) (regions : List Region) : List Region :=
  let p1 := canvas_to_image_pt offx offy scale c1.1 c1.2
  let p2 := canvas_to_image_pt offx offy scale c2.1 c2.2
  let ix1 := max 0 (min p1.1 w)
  let iy1 := max 0 (min p1.2 h)
  let ix2 := max 0 (min p2.1 w)
  let iy2 := max 0 (min p2.2 h)
  if |ix2 - ix1| < 5 ∨ |iy2 - iy1| < 5 then regions
  else
    let xs := if ix2 < ix1 then (ix2, ix1) else (ix1, ix2)
    let ys := if iy2 < iy1 then (iy2, iy1) else (iy1, iy2)
    regions ++ [("rectangle", [(xs.1, ys.1), (xs.2, ys.2)])]

/-- Embedding of the freehand branch of `ContourExtractor.add_region`
(`contour_extractor_app.py` lines 402-414): reject fewer than 3 points
(state unchanged), otherwise transform and clip every point and append a
"freehand" region. -/
def add_region_freehand (w h : ℤ) (offx offy : ℤ) (scale : ℚ)
    (pts : List (ℤ × ℤ)) (regions : List Region) : List Region :=
  if pts.length < 3 then regions
  else
    let image_points := pts.map fun c =>
      let p := canvas_to_image_pt offx offy scale c.1 c.2
      (max 0 (min p.1 w), max 0 (min p.2 h))
    regions ++ [("freehand", image_points)]

/-- Embedding of `ContourExtractor.remove_last_region`
(`contour_extractor_app.py` lines 423-429): pop the last region when one
exists. -/
def remove_last_region (regions : List Region) : List Region :=
  regions.dropLast

/-- Embedding of `ContourExtractor.clear_all_regions`
(`contour_extractor_app.py` lines 431-439). -/
def clear_all_regions (_ : List Region) : List Region :=
  []

/-- One region entry of the JSON parameter file
(`{"type": ..., "points": [{"x": ..., "y": ...}, ...]}`). -/
structure RegionJson where
  rtype : String
  points : List (ℤ × ℤ)

/-- Top level of the JSON parameter file written by
`ContourExtractor.export_regions` (`contour_extractor_app.py`
lines 549-561). -/
structure ExportData where
  version : String
  description : String
  image_size : Option (ℤ × ℤ)
  regions : List RegionJson

/-- Embedding of the data built by `ContourExtractor.export_regions`
(`contour_extractor_app.py` lines 542-561); the Python `int()` around
each coordinate is the identity here because region points are integers. -/
def export_regions (image_size : Option (ℤ × ℤ)) (regions : List Region) :
    ExportData :=
  ⟨"1.0", "コンター領域抽出パラメータ", image_size,
    regions.map fun r => ⟨r.1, r.2.map fun p => (p.1, p.2)⟩⟩

/-- Embedding of the parsing loop of `ContourExtractor.import_regions`
(`contour_extractor_app.py` lines 592-597): each JSON region becomes a
`(type, points)` tuple, with no validation of the tag or point count. -/
def parse_regions (rs : List RegionJson) : List Region :=
  rs.map fun r => (r.rtype, r.points)

/-- Embedding of how `ContourExtractor.import_regions` installs the parsed
regions (`contour_extractor_app.py` lines 599-615): replace the current
collection or extend it (an empty current collection is always replaced). -/
def import_regions_apply (replace : Bool) (current imported : List Region) :
    List Region :=
  if replace then imported else current ++ imported

/-- Outcome of one file of the batch loop, abstracting the external image
read, mask application and write (`contour_extractor_app.py`
lines 882-904): `loadFail` is `cv2.imread` returning None, `exnFail` any
exception caught by the per-file handler, `ok` a processed file. -/
inductive FileOutcome where
  | loadFail
  | exnFail
  | ok
deriving DecidableEq

/-- Per-file accounting of `BatchProcessDialog._execute`: one success or
one error counted per file, never aborting. -/
def batch_step (acc : ℕ × ℕ) (f : FileOutcome) : ℕ × ℕ :=
  match f with
  | .ok => (acc.1 + 1, acc.2)
  | .loadFail => (acc.1, acc.2 + 1)
  | .exnFail => (acc.1, acc.2 + 1)

/-- Embedding of `BatchProcessDialog._execute` (`contour_extractor_app.py`
lines 874-907): save `app.regions`, install the chosen region parameters,
fold the per-file loop over the input list, then restore `app.regions`.
Returns `((success_count, error_count), final app.regions)`. -/
def batch_execute (app_regions : List Region) (regions_param : List Region)
    (files : List FileOutcome) : (ℕ × ℕ) × List Region :=
  let original_regions := app_regions
  let _app_during := regions_param
  let counts := files.foldl batch_step (0, 0)
  ((counts.1, counts.2), original_regions)

open Real in
/-- Exact real semantics of `np.arctan2 y x` (the angle of the point
`(x, y)`), used by the gear branch of `create_shape_mask`. -/
noncomputable def arctan2 (y x : ℝ) : ℝ :=
  if 0 < x then Real.arctan (y / x)
  else if x < 0 then
    (if 0 ≤ y then Real.arctan (y / x) + π else Real.arctan (y / x) - π)
  else
    (if 0 < y then π / 2 else if y < 0 then -(π / 2) else 0)

/-- Pointwise real semantics of the circle branch of `create_shape_mask`
(`contour_utils.py` lines 140-144). -/
def circle_mask (offset_x offset_y radius center_x center_y x y : ℝ) : Prop :=
  ((x - offset_x) - center_x)^2 + ((y - offset_y) - center_y)^2 ≤ radius^2

/-- Pointwise real semantics of the rectangle branch of `create_shape_mask`
(`contour_utils.py` lines 146-151). -/
def rectangle_mask (offset_x offset_y width height center_x center_y x y : ℝ) :
    Prop :=
  |(x - offset_x) - center_x| ≤ width / 2 ∧ |(y - offset_y) - center_y| ≤ height / 2

/-- Pointwise real semantics of the ring branch of `create_shape_mask`
(`contour_utils.py` lines 153-157). -/
def ring_mask (offset_x offset_y outer_radius inner_radius x y : ℝ) : Prop :=
  inner_radius ≤ Real.sqrt ((x - offset_x)^2 + (y - offset_y)^2) ∧
  Real.sqrt ((x - offset_x)^2 + (y - offset_y)^2) ≤ outer_radius

/-- Pointwise real semantics of the gear branch of `create_shape_mask`
(`contour_utils.py` lines 164-172): radius test against a sinusoidally
modulated boundary with fixed inner radius 1.5 and tooth depth 0.5. -/
noncomputable def gear_mask (offset_x offset_y n_teeth x y : ℝ) : Prop :=
  let xo := x - offset_x
  let yo := y - offset_y
  let R := Real.sqrt (xo^2 + yo^2)
  let theta := arctan2 yo xo
  let modulated_r := 3/2 + 1/2 * (1 + Real.sin (n_teeth * theta)) / 2
  R ≤ modulated_r ∧ 1/2 ≤ R

/-- Well-formedness of a single region: the documented JSON schema demands
exactly two points for a "rectangle" and at least three for a "freehand". -/
def region_wf (r : Region) : Prop :=
  (r.1 = "rectangle" → r.2.length = 2) ∧ (r.1 = "freehand" → 3 ≤ r.2.length)

instance (r : Region) : Decidable (region_wf r) := by
  unfold region_wf; infer_instance

/-- Well-formedness of a region collection. -/
def regions_wf (l : List Region) : Prop := ∀ r ∈ l, region_wf r

instance (l : List Region) : Decidable (regions_wf l) := by
  unfold regions_wf; infer_instance

lemma getElem?_zipWith_some {α β γ : Type} (f : α → β → γ) (as : List α)
    (bs : List β) (i : ℕ) (a : α) (b : β)
    (ha : as[i]? = some a) (hb : bs[i]? = some b) :
    (List.zipWith f as bs)[i]? = some (f a b) := by
  rw [List.getElem?_zipWith', ha, hb]; rfl

lemma get2_map2D {α β γ : Type} (f : α → β → γ) (A : List (List α))
    (B : List (List β)) (i j : ℕ) (a : α) (b : β)
    (ha : get2 A i j = some a) (hb : get2 B i j = some b) :
    get2 (map2D f A B) i j = some (f a b) := by
  unfold get2 at ha hb ⊢
  obtain ⟨ra, hra, haj⟩ := Option.bind_eq_some.mp ha
  obtain ⟨rb, hrb, hbj⟩ := Option.bind_eq_some.mp hb
  rw [map2D, getElem?_zipWith_some (List.zipWith f) A B i ra rb hra hrb]
  exact getElem?_zipWith_some f ra rb j a b haj hbj

lemma map2D_shape {α β γ : Type} (f : α → β → γ) (A : List (List α))
    (B : List (List β)) (m n : ℕ) (hA : IsShape A m n) (hB : IsShape B m n) :
    IsShape (map2D f A B) m n := by
  obtain ⟨hAl, hAr⟩ := hA
  obtain ⟨hBl, hBr⟩ := hB
  constructor
  · simp [map2D, List.length_zipWith, hAl, hBl]
  · intro r hr
    rw [map2D] at hr
    obtain ⟨i, hi, hr'⟩ := List.mem_iff_getElem.mp hr
    rw [List.getElem_zipWith] at hr'
    subst hr'
    rw [List.length_zipWith]
    rw [hAr _ (A.getElem_mem _), hBr _ (B.getElem_mem _), min_self]

lemma foldl_min_le_init (as : List ℤ) (a : ℤ) : as.foldl min a ≤ a := by
  induction as generalizing a with
  | nil => exact le_refl a
  | cons b bs ih => exact le_trans (ih (min a b)) (min_le_left a b)

lemma foldl_min_le_mem (as : List ℤ) (a x : ℤ) (hx : x ∈ as) :
    as.foldl min a ≤ x := by
  induction as generalizing a with
  | nil => cases hx
  | cons b bs ih =>
    rcases List.mem_cons.mp hx with h | h
    · subst h
      exact le_trans (foldl_min_le_init bs (min a x)) (min_le_right a x)
    · exact ih (min a b) h

lemma foldl_min_mem (as : List ℤ) (a : ℤ) : as.foldl min a ∈ a :: as := by
  induction as generalizing a with
  | nil => simp
  | cons b bs ih =>
    have h := ih (min a b)
    simp only [List.foldl_cons, List.mem_cons] at h ⊢
    rcases h with h1 | h1
    · rcases min_choice a b with hc | hc
      · exact Or.inl (h1.trans hc)
      · exact Or.inr (Or.inl (h1.trans hc))
    · exact Or.inr (Or.inr h1)

lemma list_min_le (l : List ℤ) (x : ℤ) (hx : x ∈ l) : list_min l ≤ x := by
  cases l with
  | nil => cases hx
  | cons a as =>
    rcases List.mem_cons.mp hx with h | h
    · subst h; exact foldl_min_le_init as x
    · exact foldl_min_le_mem as a x h

lemma list_min_mem (l : List ℤ) (h : l ≠ []) : list_min l ∈ l := by
  cases l with
  | nil => exact absurd rfl h
  | cons a as => exact foldl_min_mem as a

lemma foldl_max_init_le (as : List ℤ) (a : ℤ) : a ≤ as.foldl max a := by
  induction as generalizing a with
  | nil => exact le_refl a
  | cons b bs ih => exact le_trans (le_max_left a b) (ih (max a b))

lemma foldl_max_mem_le (as : List ℤ) (a x : ℤ) (hx : x ∈ as) :
    x ≤ as.foldl max a := by
  induction as generalizing a with
  | nil => cases hx
  | cons b bs ih =>
    rcases List.mem_cons.mp hx with h | h
    · subst h
      exact le_trans (le_max_right a x) (foldl_max_init_le bs (max a x))
    · exact ih (max a b) h

lemma foldl_max_mem (as : List ℤ) (a : ℤ) : as.foldl max a ∈ a :: as := by
  induction as generalizing a with
  | nil => simp
  | cons b bs ih =>
    have h := ih (max a b)
    simp only [List.foldl_cons, List.mem_cons] at h ⊢
    rcases h with h1 | h1
    · rcases max_choice a b with hc | hc
      · exact Or.inl (h1.trans hc)
      · exact Or.inr (Or.inl (h1.trans hc))
    · exact Or.inr (Or.inr h1)

lemma list_max_le (l : List ℤ) (x : ℤ) (hx : x ∈ l) : x ≤ list_max l := by
  cases l with
  | nil => cases hx
  | cons a as =>
    rcases List.mem_cons.mp hx with h | h
    · subst h; exact foldl_max_init_le as x
    · exact foldl_max_mem_le as a x h

lemma list_max_mem (l : List ℤ) (h : l ≠ []) : list_max l ∈ l := by
  cases l with
  | nil => exact absurd rfl h
  | cons a as => exact foldl_max_mem as a

/-- C1: the claim states that for every detected base rectangle inside a
non-empty sub-image and arbitrary integer margins, the refined crop
rectangle of the preview update stays inside the sub-image bounds with
width and height at least 1. The code violates this: with a 5×5 ROI, base
rectangle (0, 0, 5, 5) and left margin 5, `update_preview` computes
x1 = 5 and, after the minimum-span bump, x2 = 6 > 5 = ROI width, so the
crop rectangle escapes the sub-image (the numpy slice `roi[0:5, 5:6]` is
empty). This contradicts the code's own comment, which says the
coordinates are clipped so as not to leave the ROI. -/
theorem update_preview_rect_escapes_roi :
    update_preview_rect 5 5 (0, 0, 5, 5) 0 0 5 0 = (5, 0, 6, 5) ∧
    ¬ ((update_preview_rect 5 5 (0, 0, 5, 5) 0 0 5 0).2.2.1 ≤ 5) := by
  decide

/-- C7: exporting a region collection to the JSON parameter format and
re-importing it reproduces the identical ordered sequence of
(type, points) tuples. Region points are integers by construction, so the
Python `int()` conversion in the exporter is the identity. -/
theorem export_import_round_trip (image_size : Option (ℤ × ℤ))
    (regions : List Region) :
    parse_regions (export_regions image_size regions).regions = regions := by
  have h : ((fun r : RegionJson => (r.rtype, r.points)) ∘
      fun r : Region => RegionJson.mk r.1 r.2) = id := by
    funext r
    rfl
  simp [parse_regions, export_regions, List.map_map, h]

lemma batch_fold_counts (files : List FileOutcome) (a b : ℕ) :
    files.foldl batch_step (a, b) =
      (a + (files.filter fun f => decide (f = FileOutcome.ok)).length,
       b + (files.filter fun f => decide (¬ f = FileOutcome.ok)).length) := by
  induction files generalizing a b with
  | nil => simp
  | cons f fs ih =>
    cases f <;> simp [batch_step, ih] <;> omega

/-- C8: the batch loop visits every input file (each is counted exactly
once, as a success or as an error, so one bad file never aborts the rest)
and, once finished, `app.regions` is restored to its value from before
the batch run. -/
theorem batch_execute_spec (app_regions regions_param : List Region)
    (files : List FileOutcome) :
    (batch_execute app_regions regions_param files).2 = app_regions ∧
    (batch_execute app_regions regions_param files).1.1 =
      (files.filter fun f => decide (f = FileOutcome.ok)).length ∧
    (batch_execute app_regions regions_param files).1.2 =
      (files.filter fun f => decide (¬ f = FileOutcome.ok)).length ∧
    (batch_execute app_regions regions_param files).1.1 +
      (batch_execute app_regions regions_param files).1.2 = files.length := by
  refine ⟨rfl, ?_, ?_, ?_⟩
  · show (files.foldl batch_step (0, 0)).1 = _
    rw [batch_fold_counts]
    exact Nat.zero_add _
  · show (files.foldl batch_step (0, 0)).2 = _
    rw [batch_fold_counts]
    exact Nat.zero_add _
  · show (files.foldl batch_step (0, 0)).1 + (files.foldl batch_step (0, 0)).2 = _
    rw [batch_fold_counts]
    simp only [Nat.zero_add, decide_not]
    induction files with
    | nil => rfl
    | cons f fs ih => cases f <;> simp only [List.filter_cons] <;> simp <;> omega

/-- C4: once the area filter (area strictly above 50) has run, a nonempty
survivor list yields the minimal axis-aligned rectangle enclosing the
survivors' bounding rectangles — the left and top edges are the minima of
the surviving left and top edges, attained by some survivor, and the
right and bottom edges are the maxima of the surviving right and bottom
edges, attained by some survivor — while an empty survivor list yields
the whole sub-image `(0, 0, roi_w, roi_h)`. -/
theorem run_auto_detection_spec (contours : List Contour) (roi_w roi_h : ℤ)
    (s : List Contour) (r : ℤ × ℤ × ℤ × ℤ)
    (hs : s = contours.filter fun c => decide (50 < c.area))
    (hr : r = run_auto_detection contours roi_w roi_h) :
    (s = [] → r = (0, 0, roi_w, roi_h)) ∧
    (s ≠ [] →
      (∀ c ∈ s, r.1 ≤ c.rx ∧ r.2.1 ≤ c.ry ∧
        c.rx + c.rw ≤ r.1 + r.2.2.1 ∧ c.ry + c.rh ≤ r.2.1 + r.2.2.2) ∧
      (∃ c ∈ s, c.rx = r.1) ∧
      (∃ c ∈ s, c.ry = r.2.1) ∧
      (∃ c ∈ s, c.rx + c.rw = r.1 + r.2.2.1) ∧
      (∃ c ∈ s, c.ry + c.rh = r.2.1 + r.2.2.2)) := by
  subst hs hr
  constructor
  · intro h
    unfold run_auto_detection
    by_cases hc : contours.isEmpty
    · rw [if_pos hc]
    · rw [if_neg hc, h]
      simp
  · intro h
    have hcon : contours ≠ [] := by
      intro hc
      rw [hc] at h
      simp at h
    have hce : ¬ (contours.isEmpty = true) := by
      simpa [List.isEmpty_iff] using hcon
    have hmapne : (contours.filter fun c => decide (50 < c.area)).map
        (fun c => (c.rx, c.ry, c.rw, c.rh)) ≠ [] := by
      simpa using h
    have hre : ¬ (((contours.filter fun c => decide (50 < c.area)).map
        (fun c => (c.rx, c.ry, c.rw, c.rh))).isEmpty = true) := by
      simpa [List.isEmpty_iff] using hmapne
    have hr' : run_auto_detection contours roi_w roi_h =
        (list_min ((contours.filter fun c => decide (50 < c.area)).map fun c => c.rx),
         list_min ((contours.filter fun c => decide (50 < c.area)).map fun c => c.ry),
         list_max ((contours.filter fun c => decide (50 < c.area)).map fun c => c.rx + c.rw)
           - list_min ((contours.filter fun c => decide (50 < c.area)).map fun c => c.rx),
         list_max ((contours.filter fun c => decide (50 < c.area)).map fun c => c.ry + c.rh)
           - list_min ((contours.filter fun c => decide (50 < c.area)).map fun c => c.ry)) := by
      unfold run_auto_detection
      rw [if_neg hce]
      simp only [if_neg hre, List.map_map, Function.comp_def]
    rw [hr']
    dsimp only
    have hmap : ∀ (f : Contour → ℤ),
        (contours.filter fun c => decide (50 < c.area)).map f ≠ [] := by
      intro f hm
      exact h (List.map_eq_nil_iff.mp hm)
    refine ⟨?_, ?_, ?_, ?_, ?_⟩
    · intro c hc
      refine ⟨list_min_le _ _ (List.mem_map_of_mem _ hc),
              list_min_le _ _ (List.mem_map_of_mem _ hc), ?_, ?_⟩
      · have h1 := list_max_le _ (c.rx + c.rw) (List.mem_map_of_mem (fun c => c.rx + c.rw) hc)
        omega
      · have h1 := list_max_le _ (c.ry + c.rh) (List.mem_map_of_mem (fun c => c.ry + c.rh) hc)
        omega
    · obtain ⟨c, hcm, hce'⟩ := List.mem_map.mp (list_min_mem _ (hmap fun c => c.rx))
      exact ⟨c, hcm, hce'⟩
    · obtain ⟨c, hcm, hce'⟩ := List.mem_map.mp (list_min_mem _ (hmap fun c => c.ry))
      exact ⟨c, hcm, hce'⟩
    · obtain ⟨c, hcm, hce'⟩ := List.mem_map.mp (list_max_mem _ (hmap fun c => c.rx + c.rw))
      exact ⟨c, hcm, by omega⟩
    · obtain ⟨c, hcm, hce'⟩ := List.mem_map.mp (list_max_mem _ (hmap fun c => c.ry + c.rh))
      exact ⟨c, hcm, by omega⟩

lemma regions_wf_append (l : List Region) (r : Region)
    (hl : regions_wf l) (hr : region_wf r) : regions_wf (l ++ [r]) := by
  intro x hx
  rcases List.mem_append.mp hx with h | h
  · exact hl x h
  · rw [List.mem_singleton.mp h]
    exact hr

lemma rect_region_wf (p q : ℤ × ℤ) : region_wf ("rectangle", [p, q]) :=
  ⟨fun _ => rfl,
   fun hc => absurd (show ("rectangle" : String) = "freehand" from hc) (by decide)⟩

lemma freehand_region_wf (pts : List (ℤ × ℤ)) (h : 3 ≤ pts.length) :
    region_wf ("freehand", pts) :=
  ⟨fun hc => absurd (show ("freehand" : String) = "rectangle" from hc) (by decide),
   fun _ => h⟩

/-- C3 (counterexample): `import_regions` performs no validation of the
imported point counts, so importing the well-formed JSON document
`{"regions": [{"type": "rectangle", "points": []}]}` puts a zero-point
"rectangle" into the collection, violating the claimed invariant. -/
theorem import_breaks_region_invariant :
    ¬ regions_wf (import_regions_apply true []
      (parse_regions [⟨"rectangle", []⟩])) := by
  decide

/-- C3 (amended): every region collection operation of the app preserves
the invariant — "rectangle" regions have exactly two points, "freehand"
regions at least three — and `import_regions` preserves it provided the
imported file's regions themselves satisfy the invariant (as the
documented JSON schema requires). -/
theorem region_invariant_preserved (w h offx offy : ℤ) (scale : ℚ)
    (c1 c2 : ℤ × ℤ) (pts : List (ℤ × ℤ)) (regions imported : List Region)
    (replace : Bool) (hreg : regions_wf regions) (himp : regions_wf imported) :
    regions_wf (add_region_rectangle w h offx offy scale c1 c2 regions) ∧
    regions_wf (add_region_freehand w h offx offy scale pts regions) ∧
    regions_wf (remove_last_region regions) ∧
    regions_wf (clear_all_regions regions) ∧
    regions_wf (import_regions_apply replace regions imported) := by
  refine ⟨?_, ?_, ?_, ?_, ?_⟩
  · unfold add_region_rectangle
    dsimp only
    split
    · exact hreg
    · exact regions_wf_append _ _ hreg (rect_region_wf _ _)
  · unfold add_region_freehand
    dsimp only
    split
    · exact hreg
    · refine regions_wf_append _ _ hreg (freehand_region_wf _ ?_)
      rw [List.length_map]
      omega
  · intro x hx
    exact hreg x (List.dropLast_subset _ hx)
  · intro x hx
    cases hx
  · unfold import_regions_apply
    split
    · exact himp
    · intro x hx
      rcases List.mem_append.mp hx with hx' | hx'
      · exact hreg x hx'
      · exact himp x hx'

/-- Witness for the amended C3 theorem at concrete inputs. -/
theorem region_invariant_preserved_witness :
    regions_wf (add_region_rectangle 100 100 0 0 1 (0, 0) (50, 50) []) :=
  (region_invariant_preserved 100 100 0 0 1 (0, 0) (50, 50)
    [(0, 0), (10, 0), (10, 10)] [] [("freehand", [(0, 0), (10, 0), (10, 10)])]
    true (by decide) (by decide)).1

/-- C5: element-wise semantics of `apply_mask_to_data` — mode "cae_inner"
replaces values outside the mask with the missing marker and keeps the
rest, mode "cae_outer" replaces values inside the mask and keeps the
rest, and any other mode returns the data unchanged (the input array is
never mutated: the source operates on `Z.copy()`, and the embedding is
pure). -/
theorem apply_mask_to_data_spec (Z : List (List (Option ℚ)))
    (mask : List (List Bool)) (mode : String) (i j : ℕ) (z : Option ℚ) (m : Bool)
    (hz : get2 Z i j = some z) (hm : get2 mask i j = some m) :
    get2 (apply_mask_to_data Z mask "cae_inner") i j
      = some (if m then z else none) ∧
    get2 (apply_mask_to_data Z mask "cae_outer") i j
      = some (if m then none else z) ∧
    (mode ≠ "cae_inner" → mode ≠ "cae_outer" →
      apply_mask_to_data Z mask mode = Z) := by
  refine ⟨?_, ?_, ?_⟩
  · unfold apply_mask_to_data
    rw [if_pos rfl]
    exact get2_map2D _ Z mask i j z m hz hm
  · unfold apply_mask_to_data
    rw [if_neg (by decide), if_pos rfl]
    exact get2_map2D _ Z mask i j z m hz hm
  · intro h1 h2
    unfold apply_mask_to_data
    rw [if_neg h1, if_neg h2]

/-- Witness for the C5 theorem at a concrete array, mask and mode. -/
theorem apply_mask_to_data_spec_witness :
    get2 (apply_mask_to_data [[some (1:ℚ), some 2]] [[true, false]] "cae_inner") 0 1
      = some (if false then some (2:ℚ) else none) ∧
    get2 (apply_mask_to_data [[some (1:ℚ), some 2]] [[true, false]] "cae_outer") 0 1
      = some (if false then none else some (2:ℚ)) ∧
    ("standard" ≠ "cae_inner" → "standard" ≠ "cae_outer" →
      apply_mask_to_data [[some (1:ℚ), some 2]] [[true, false]] "standard"
        = [[some (1:ℚ), some 2]]) :=
  apply_mask_to_data_spec [[some 1, some 2]] [[true, false]] "standard" 0 1
    (some 2) false rfl rfl

/-- Trivial instantiation of the abstracted numpy operations, used to
evaluate the model at concrete inputs. -/
def opsZero : NumOps :=
  ⟨fun _ => 0, fun _ => 0, fun _ => 0, fun _ => 0, fun _ _ => 0⟩

/-- C6: the pure field and mask functions are total (the embedding is a
total function, mirroring that the Python code raises no exception), and
both fallbacks are silent — an unrecognized pattern produces the default
field `Z = X * exp(-X^2 - Y^2)` and an unrecognized shape produces an
all-true mask of the grid's shape. -/
theorem silent_fallbacks (ops : NumOps) (nx ny : ℕ) (pattern shape : String)
    (X Y : List (List ℚ)) (ox oy : ℚ) (kw : ShapeKwargs)
    (hp : pattern ∉ (["peaks", "waves", "gradient", "stress"] : List String))
    (hs : shape ∉ (["circle", "rectangle", "ring", "bracket", "gear"] : List String)) :
    (generate_contour_data ops nx ny pattern).2.2 =
      map2D (fun xv yv => xv * ops.exp (-xv^2 - yv^2))
        (generate_contour_data ops nx ny pattern).1
        (generate_contour_data ops nx ny pattern).2.1 ∧
    create_shape_mask ops X Y shape ox oy kw
      = (X.map fun row => row.map fun _ => true) ∧
    (∀ row ∈ create_shape_mask ops X Y shape ox oy kw, ∀ b ∈ row, b = true) := by
  simp only [List.mem_cons, List.not_mem_nil, or_false, not_or] at hp hs
  obtain ⟨hp1, hp2, hp3, hp4⟩ := hp
  obtain ⟨hs1, hs2, hs3, hs4, hs5⟩ := hs
  have hmask : create_shape_mask ops X Y shape ox oy kw
      = (X.map fun row => row.map fun _ => true) := by
    unfold create_shape_mask
    rw [if_neg hs1, if_neg hs2, if_neg hs3, if_neg hs4, if_neg hs5]
  refine ⟨?_, hmask, ?_⟩
  · unfold generate_contour_data
    dsimp only
    rw [if_neg hp1, if_neg hp2, if_neg hp3, if_neg hp4]
  · rw [hmask]
    intro row hrow b hb
    obtain ⟨r0, _, hr0⟩ := List.mem_map.mp hrow
    subst hr0
    obtain ⟨v, _, hv⟩ := List.mem_map.mp hb
    exact hv.symm

/-- Witness for the C6 theorem: an unknown shape name yields the all-true
mask of the grid's shape. -/
theorem silent_fallbacks_witness :
    create_shape_mask opsZero [[(1:ℚ)]] [[(2:ℚ)]] "bar" 0 0 defaultKwargs
      = [[true]] :=
  (silent_fallbacks opsZero 2 2 "foo" "bar" [[(1:ℚ)]] [[(2:ℚ)]] 0 0 defaultKwargs
    (by decide) (by decide)).2.1

/-- C10: both GUI tools silently enforce a minimum rectangle-selection
size of 5 pixels per side in image coordinates. When the clipped
selection is narrower or shorter than 5 pixels, the colorbar extractor's
release handler sets no ROI and runs no detection, and the contour
extractor's `add_region` leaves the region list unchanged. -/
theorem min_selection_guard (w h offx offy : ℤ) (scale : ℚ) (sx sy ex ey : ℤ)
    (w2 h2 offx2 offy2 : ℤ) (scale2 : ℚ) (c1 c2 : ℤ × ℤ) (regions : List Region)
    (p1 p2 q1 q2 : ℤ × ℤ)
    (hp1 : p1 = canvas_to_image_pt offx offy scale (min sx ex) (min sy ey))
    (hp2 : p2 = canvas_to_image_pt offx offy scale (max sx ex) (max sy ey))
    (hguard1 : min w p2.1 - max 0 p1.1 < 5 ∨ min h p2.2 - max 0 p1.2 < 5)
    (hq1 : q1 = canvas_to_image_pt offx2 offy2 scale2 c1.1 c1.2)
    (hq2 : q2 = canvas_to_image_pt offx2 offy2 scale2 c2.1 c2.2)
    (hguard2 : |max 0 (min q2.1 w2) - max 0 (min q1.1 w2)| < 5 ∨
               |max 0 (min q2.2 h2) - max 0 (min q1.2 h2)| < 5) :
    on_main_release_roi w h offx offy scale sx sy ex ey = none ∧
    add_region_rectangle w2 h2 offx2 offy2 scale2 c1 c2 regions = regions := by
  subst hp1 hp2 hq1 hq2
  constructor
  · unfold on_main_release_roi
    dsimp only
    rw [if_pos]
    exact hguard1
  · unfold add_region_rectangle
    dsimp only
    rw [if_pos]
    exact hguard2

/-- Witness for the C10 theorem: a degenerate zero-size selection is
rejected by both tools. -/
theorem min_selection_guard_witness :
    on_main_release_roi 100 100 0 0 1 0 0 0 0 = none ∧
    add_region_rectangle 100 100 0 0 1 (0, 0) (0, 0) [] = [] := by
  have hpt : canvas_to_image_pt 0 0 1 0 0 = (0, 0) := by
    simp [canvas_to_image_pt, pytrunc]
  exact min_selection_guard 100 100 0 0 1 0 0 0 0 100 100 0 0 1 (0, 0) (0, 0) []
    (0, 0) (0, 0) (0, 0) (0, 0)
    (by simp [hpt]) (by simp [hpt]) (by decide) (by rw [hpt]) (by rw [hpt]) (by decide)

lemma linspace_length (a b : ℚ) (n : ℕ) : (linspace a b n).length = n := by
  unfold linspace
  rw [List.length_map, List.length_range]

lemma linspace_getElem? (a b : ℚ) (n i : ℕ) (h : i < n) :
    (linspace a b n)[i]? = some (a + (b - a) * i / ((n : ℚ) - 1)) := by
  unfold linspace
  rw [List.getElem?_map]
  simp [List.getElem?_range, h]

/-- C2 (counterexample): the claim says the three arrays have shape
nx×ny, but `np.meshgrid(x, y)` returns arrays of shape (ny, nx): at
nx = 2, ny = 3 the X array has 3 rows of length 2, not 2 rows of
length 3. -/
theorem generate_contour_data_shape_cex :
    ¬ IsShape (generate_contour_data opsZero 2 3 "gradient").1 2 3 := by
  decide

/-- C2 (amended): for nx ≥ 2 and ny ≥ 2 and any pattern, the three arrays
X, Y, Z returned by `generate_contour_data` all have shape ny×nx (ny
rows of nx entries — the transpose of the claimed nx×ny); X holds the nx
evenly spaced x-values `-3 + 6*j/(nx-1)` in every row, Y holds the ny
evenly spaced y-values `-3 + 6*i/(ny-1)` in every column, and the
endpoints -3 and 3 are attained in both directions. -/
theorem generate_contour_data_grid (ops : NumOps) (nx ny : ℕ) (pattern : String)
    (hx : 2 ≤ nx) (hy : 2 ≤ ny) :
    IsShape (generate_contour_data ops nx ny pattern).1 ny nx ∧
    IsShape (generate_contour_data ops nx ny pattern).2.1 ny nx ∧
    IsShape (generate_contour_data ops nx ny pattern).2.2 ny nx ∧
    (∀ i j, i < ny → j < nx →
      get2 (generate_contour_data ops nx ny pattern).1 i j
        = some (-3 + 6 * j / ((nx : ℚ) - 1)) ∧
      get2 (generate_contour_data ops nx ny pattern).2.1 i j
        = some (-3 + 6 * i / ((ny : ℚ) - 1))) ∧
    (∀ i, i < ny →
      get2 (generate_contour_data ops nx ny pattern).1 i 0 = some (-3) ∧
      get2 (generate_contour_data ops nx ny pattern).1 i (nx - 1) = some 3) ∧
    (∀ j, j < nx →
      get2 (generate_contour_data ops nx ny pattern).2.1 0 j = some (-3) ∧
      get2 (generate_contour_data ops nx ny pattern).2.1 (ny - 1) j = some 3) := by
  have hX : (generate_contour_data ops nx ny pattern).1
      = (linspace (-3) 3 ny).map fun _ => linspace (-3) 3 nx := rfl
  have hY : (generate_contour_data ops nx ny pattern).2.1
      = (linspace (-3) 3 ny).map
          fun yv => (linspace (-3) 3 nx).map fun _ => yv := rfl
  have hZ : ∃ f, (generate_contour_data ops nx ny pattern).2.2
      = map2D f ((linspace (-3) 3 ny).map fun _ => linspace (-3) 3 nx)
          ((linspace (-3) 3 ny).map
            fun yv => (linspace (-3) 3 nx).map fun _ => yv) := by
    unfold generate_contour_data
    dsimp only
    split
    · exact ⟨_, rfl⟩
    · split
      · exact ⟨_, rfl⟩
      · split
        · exact ⟨_, rfl⟩
        · split
          · exact ⟨_, rfl⟩
          · exact ⟨_, rfl⟩
  have hXshape : IsShape ((linspace (-3) 3 ny).map
      fun _ => linspace (-3) 3 nx) ny nx := by
    constructor
    · simp [linspace_length]
    · intro r hr
      obtain ⟨_, _, hrr⟩ := List.mem_map.mp hr
      rw [← hrr, linspace_length]
  have hYshape : IsShape ((linspace (-3) 3 ny).map
      fun yv => (linspace (-3) 3 nx).map fun _ => yv) ny nx := by
    constructor
    · simp [linspace_length]
    · intro r hr
      obtain ⟨_, _, hrr⟩ := List.mem_map.mp hr
      rw [← hrr, List.length_map, linspace_length]
  have hxq : ((nx : ℚ) - 1) ≠ 0 := by
    have : (2 : ℚ) ≤ (nx : ℚ) := by exact_mod_cast hx
    intro hc
    nlinarith
  have hyq : ((ny : ℚ) - 1) ≠ 0 := by
    have : (2 : ℚ) ≤ (ny : ℚ) := by exact_mod_cast hy
    intro hc
    nlinarith
  have hvalX : ∀ i j, i < ny → j < nx →
      get2 ((linspace (-3) 3 ny).map fun _ => linspace (-3) 3 nx) i j
        = some (-3 + 6 * j / ((nx : ℚ) - 1)) := by
    intro i j hi hj
    unfold get2
    rw [List.getElem?_map, linspace_getElem? (-3) 3 ny i hi]
    simp only [Option.map_some', Option.some_bind]
    rw [linspace_getElem? (-3) 3 nx j hj]
    norm_num
  have hvalY : ∀ i j, i < ny → j < nx →
      get2 ((linspace (-3) 3 ny).map
        fun yv => (linspace (-3) 3 nx).map fun _ => yv) i j
        = some (-3 + 6 * i / ((ny : ℚ) - 1)) := by
    intro i j hi hj
    unfold get2
    rw [List.getElem?_map, linspace_getElem? (-3) 3 ny i hi]
    simp only [Option.map_some', Option.some_bind]
    rw [List.getElem?_map, linspace_getElem? (-3) 3 nx j hj]
    simp only [Option.map_some']
    norm_num
  refine ⟨hX ▸ hXshape, hY ▸ hYshape, ?_, ?_, ?_, ?_⟩
  · obtain ⟨f, hf⟩ := hZ
    rw [hf]
    exact map2D_shape f _ _ ny nx hXshape hYshape
  · intro i j hi hj
    rw [hX, hY]
    exact ⟨hvalX i j hi hj, hvalY i j hi hj⟩
  · intro i hi
    rw [hX]
    constructor
    · rw [hvalX i 0 hi (by omega)]
      norm_num
    · rw [hvalX i (nx - 1) hi (by omega)]
      have hc : ((nx - 1 : ℕ) : ℚ) = (nx : ℚ) - 1 := by
        push_cast [Nat.cast_sub (by omega : 1 ≤ nx)]
        ring
      rw [hc, mul_div_assoc, div_self hxq, mul_one]
      norm_num
  · intro j hj
    rw [hY]
    constructor
    · rw [hvalY 0 j (by omega) hj]
      norm_num
    · rw [hvalY (ny - 1) j (by omega) hj]
      have hc : ((ny - 1 : ℕ) : ℚ) = (ny : ℚ) - 1 := by
        push_cast [Nat.cast_sub (by omega : 1 ≤ ny)]
        ring
      rw [hc, mul_div_assoc, div_self hyq, mul_one]
      norm_num

/-- Witness for the amended C2 theorem at nx = 2, ny = 3. -/
theorem generate_contour_data_grid_witness :
    IsShape (generate_contour_data opsZero 2 3 "gradient").1 3 2 ∧
    get2 (generate_contour_data opsZero 2 3 "gradient").1 0 0 = some (-3) := by
  have h := generate_contour_data_grid opsZero 2 3 "gradient" (by decide) (by decide)
  exact ⟨h.1, (h.2.2.2.2.1 0 (by decide)).1⟩

lemma sin_eight_add_pi (a : ℝ) :
    Real.sin (8 * (a + Real.pi)) = Real.sin (8 * a) := by
  have h : 8 * (a + Real.pi) = 8 * a + (4 : ℤ) * (2 * Real.pi) := by
    push_cast
    ring
  rw [h, Real.sin_add_int_mul_two_pi]

lemma sin_eight_sub_pi (a : ℝ) :
    Real.sin (8 * (a - Real.pi)) = Real.sin (8 * a) := by
  have h : 8 * (a - Real.pi) = 8 * a + (-4 : ℤ) * (2 * Real.pi) := by
    push_cast
    ring
  rw [h, Real.sin_add_int_mul_two_pi]

lemma arctan2_neg_neg (y x : ℝ) :
    arctan2 (-y) (-x) = arctan2 y x + Real.pi ∨
    arctan2 (-y) (-x) = arctan2 y x - Real.pi ∨
    arctan2 (-y) (-x) = arctan2 y x := by
  unfold arctan2
  rcases lt_trichotomy x 0 with hx | hx | hx
  · rw [if_pos (by linarith : (0:ℝ) < -x), if_neg (by linarith : ¬ (0:ℝ) < x),
      if_pos hx, neg_div_neg_eq]
    by_cases hy : 0 ≤ y
    · rw [if_pos hy]
      right; left; ring
    · rw [if_neg hy]
      left; ring
  · subst hx
    simp only [neg_zero, lt_self_iff_false, if_false]
    rcases lt_trichotomy y 0 with hy | hy | hy
    · rw [if_pos (by linarith : (0:ℝ) < -y), if_neg (by linarith : ¬ (0:ℝ) < y),
        if_pos hy]
      left; ring
    · subst hy
      simp only [neg_zero, lt_self_iff_false, if_false]
      right; right; trivial
    · rw [if_neg (by linarith : ¬ (0:ℝ) < -y), if_pos (by linarith : -y < 0),
        if_pos hy]
      right; left; ring
  · rw [if_neg (by linarith : ¬ (0:ℝ) < -x), if_pos (by linarith : -x < 0),
      if_pos hx, neg_div_neg_eq]
    by_cases hy : 0 ≤ -y
    · rw [if_pos hy]
      left; ring
    · rw [if_neg hy]
      right; left; ring

lemma sin_eight_arctan2_neg (y x : ℝ) :
    Real.sin (8 * arctan2 (-y) (-x)) = Real.sin (8 * arctan2 y x) := by
  rcases arctan2_neg_neg y x with h | h | h
  · rw [h, sin_eight_add_pi]
  · rw [h, sin_eight_sub_pi]
  · rw [h]

/-- C9: with zero offset and default parameters, the circle, ring and
gear masks are invariant under 180° rotation about the origin, and the
rectangle mask is invariant under each axis reflection. For the gear the
default tooth count 8 is even, so the sinusoidal modulation
`sin(8*arctan2(y, x))` is unchanged by rotating the point by π. -/
theorem shape_mask_symmetry (x y : ℝ) :
    (circle_mask 0 0 2 0 0 (-x) (-y) ↔ circle_mask 0 0 2 0 0 x y) ∧
    (ring_mask 0 0 (5/2) 1 (-x) (-y) ↔ ring_mask 0 0 (5/2) 1 x y) ∧
    (gear_mask 0 0 8 (-x) (-y) ↔ gear_mask 0 0 8 x y) ∧
    (rectangle_mask 0 0 4 3 0 0 (-x) y ↔ rectangle_mask 0 0 4 3 0 0 x y) ∧
    (rectangle_mask 0 0 4 3 0 0 x (-y) ↔ rectangle_mask 0 0 4 3 0 0 x y) := by
  refine ⟨?_, ?_, ?_, ?_, ?_⟩
  · unfold circle_mask
    simp only [sub_zero]
    rw [show ((-x : ℝ))^2 = x^2 by ring, show ((-y : ℝ))^2 = y^2 by ring]
  · unfold ring_mask
    simp only [sub_zero]
    rw [show ((-x : ℝ))^2 + (-y)^2 = x^2 + y^2 by ring]
  · unfold gear_mask
    dsimp only
    simp only [sub_zero]
    rw [show ((-x : ℝ))^2 + (-y)^2 = x^2 + y^2 by ring, sin_eight_arctan2_neg y x]
  · unfold rectangle_mask
    simp only [sub_zero]
    rw [abs_neg]
  · unfold rectangle_mask
    simp only [sub_zero]
    rw [abs_neg]

/-- Witness for the C4 theorem: with one surviving contour (area 60) and
one filtered-out contour (area 10), the detected boundary's left edge is
attained by a survivor. -/
theorem run_auto_detection_spec_witness :
    ∃ c ∈ [Contour.mk 60 1 2 3 4], c.rx =
      (run_auto_detection [Contour.mk 60 1 2 3 4, Contour.mk 10 0 0 9 9] 100 100).1 :=
  ((run_auto_detection_spec [Contour.mk 60 1 2 3 4, Contour.mk 10 0 0 9 9] 100 100
      [Contour.mk 60 1 2 3 4]
      (run_auto_detection [Contour.mk 60 1 2 3 4, Contour.mk 10 0 0 9 9] 100 100)
      rfl rfl).2 (List.cons_ne_nil _ _)).2.1
